import Mathlib

/-!
Verification of the goscript bytecode code generator
(`src/codegen/src/codegen.rs`) against its natural-language specification.

The relevant parts of the generator are shallowly embedded below.  Machine
integers are modelled as `Int`/`Nat`; Rust's `as i16` cast is modelled by
`wrapI16` (two's-complement wrap), `i16::try_from` by `i16TryFrom`.  A
fallible generator step yields an `Outcome`: success, a reported diagnostic
(`Err(())` after `errors.add`), or a Rust panic (`unwrap`/`unreachable!`).
Instruction streams are lists of 16-bit code words (opcode or data), as the
spec's §6.3 describes.  Functions whose Rust source lives outside
`src/` (the VM and `func.rs` emit helpers) are modelled from the spec and
marked as such in their doc comments.
-/

namespace Goscript

/-- Opcodes (the subset of `goscript_vm::opcode::Opcode` that
`codegen.rs` emits). -/
inductive Opcode where
  | PUSH_NIL | PUSH_TRUE | PUSH_FALSE | PUSH_IMM
  | POP | LOAD | STORE | LOAD_FIELD
  | REF | DEREF | NEW | MAKE | LEN | CAP | APPEND | ASSERT
  | ADD | SUB | MUL | QUO | REM | AND | OR | XOR | SHL | SHR | AND_NOT | NOT
  | UNARY_ADD | UNARY_SUB | UNARY_XOR
  | EQL | LSS | GTR | NEQ | LEQ | GEQ
  | JUMP | JUMP_IF | JUMP_IF_NOT | RANGE
  | PRE_CALL | CALL | RETURN | RETURN_INIT_PKG | IMPORT
  deriving DecidableEq

/-- One 16-bit word of a function's instruction buffer: an opcode or an
interleaved data word (mirrors `CodeData` in the Rust source). -/
inductive CodeWord where
  | op : Opcode → CodeWord
  | data : Int → CodeWord
  deriving DecidableEq

/-- A diagnostic recorded through the error sink (`FilePosErrors`). -/
inductive Diag where
  | undefined (name : String)
  | mismatch (l r : Nat)
  | truncated
  | overflowsInt
  | invalidConstLiteral
  | complexConstant
  | childFailed
  deriving DecidableEq

/-- Outcome of a fallible generator step: success, `Err(())` with a
diagnostic already recorded, or a Rust panic (`unwrap` / `unreachable!`). -/
inductive Outcome (α : Type) where
  | ok : α → Outcome α
  | err : Diag → Outcome α
  | panicked : Outcome α
  deriving DecidableEq

/-- `i16::MAX`. -/
def i16Max : Int := 32767

/-- `i16::MIN`. -/
def i16Min : Int := -32768

/-- Rust's `as i16` conversion: two's-complement wrap-around. -/
def wrapI16 (n : Int) : Int := (n + 32768) % 65536 - 32768

/-- Rust's `i16::try_from`: succeeds exactly on values in `i16` range. -/
def i16TryFrom (n : Int) : Option Int :=
  if i16Min ≤ n ∧ n ≤ i16Max then some n else none

/-- In-place backpatch `func.code[i] = CodeData::Data(v)`. -/
def setData (code : List CodeWord) (i : Nat) (v : Int) : List CodeWord :=
  code.set i (CodeWord.data v)

/-- Modelled from the spec: the VM's jump semantics (invariant 3 of §3 and
§6.3; the VM itself is outside `src/`).  A jump whose data word sits at
index `dataIdx` and holds offset `off` transfers control to the word at
`dataIdx + 1 + off`. -/
def jumpTarget (dataIdx : Nat) (off : Int) : Int :=
  (dataIdx : Int) + 1 + off

/-- Modelled from the spec: the program counter after executing a
conditional jump (`JUMP_IF`/`JUMP_IF_NOT`) whose data word is at `dataIdx`
with offset `off`; `taken` tells whether the jump condition held. -/
def condJumpNext (dataIdx : Nat) (off : Int) (taken : Bool) : Int :=
  if taken then jumpTarget dataIdx off else (dataIdx : Int) + 1

/-- `visit_stmt_if`.  `pre` is the code already in the current function,
`cond`/`body` the words appended by visiting the condition and the then
block, `els` the words appended by the optional else branch.  The two
`i16::try_from(..).unwrap()` calls become `panicked` when the offset does
not fit. -/
def visitStmtIf (pre cond body : List CodeWord) (els : Option (List CodeWord)) :
    Outcome (List CodeWord) :=
  let c1 := pre ++ cond ++ [CodeWord.op Opcode.JUMP_IF_NOT, CodeWord.data 0]
  let topMarker := c1.length
  let c2 := c1 ++ body
  match els with
  | none =>
    match i16TryFrom ((c2.length : Int) - topMarker) with
    | none => Outcome.panicked
    | some off => Outcome.ok (setData c2 (topMarker - 1) off)
  | some e =>
    let c3 := c2 ++ [CodeWord.op Opcode.JUMP, CodeWord.data 0]
    let marker2 := c3.length
    match i16TryFrom ((c3.length : Int) - topMarker) with
    | none => Outcome.panicked
    | some off =>
      let c4 := setData c3 (topMarker - 1) off ++ e
      match i16TryFrom ((c4.length : Int) - marker2) with
      | none => Outcome.panicked
      | some off2 => Outcome.ok (setData c4 (marker2 - 1) off2)

/-- `visit_stmt_for`.  `pre` is pre-existing code, `init` the words from the
init statement, `cond` those of the optional condition, `body`/`post` those
of the block and post statement. -/
def visitStmtFor (pre init : List CodeWord) (cond : Option (List CodeWord))
    (body post : List CodeWord) : Outcome (List CodeWord) :=
  let c0 := pre ++ init
  let topMarker := c0.length
  let c1 := match cond with
    | some c => c0 ++ c ++ [CodeWord.op Opcode.JUMP_IF_NOT, CodeWord.data 0]
    | none => c0
  let outMarker := match cond with
    | some _ => some c1.length
    | none => none
  let c2 := c1 ++ body ++ post
  let c3 := c2 ++ [CodeWord.op Opcode.JUMP]
  match i16TryFrom (-((c3.length : Int) + 1 - topMarker)) with
  | none => Outcome.panicked
  | some off =>
    let c4 := c3 ++ [CodeWord.data off]
    match outMarker with
    | none => Outcome.ok c4
    | some m =>
      match i16TryFrom ((c4.length : Int) - m) with
      | none => Outcome.panicked
      | some off2 => Outcome.ok (setData c4 (m - 1) off2)

/-- `visit_stmt_range`, after `gen_assign` returned the range marker.
`pre` holds everything emitted up to (not including) the `RANGE` opcode
(iterable, `PUSH_IMM`, `-1`), so the marker is `pre.length`;
`storesPops` are the store/pop words the assignment lowering emitted after
the `RANGE` placeholder, and `body` the loop body's words. -/
def visitStmtRange (pre storesPops body : List CodeWord) :
    Outcome (List CodeWord) :=
  let marker := pre.length
  let c1 := pre ++ [CodeWord.op Opcode.RANGE, CodeWord.data 0] ++ storesPops ++ body
  let c2 := c1 ++ [CodeWord.op Opcode.JUMP]
  match i16TryFrom (-((c2.length : Int) + 1 - marker)) with
  | none => Outcome.panicked
  | some off =>
    let c3 := c2 ++ [CodeWord.data off]
    match i16TryFrom ((c3.length : Int) - ((marker : Int) + 2)) with
    | none => Outcome.panicked
    | some endOff => Outcome.ok (setData c3 (marker + 1) endOff)

/-! ## Binary expressions (`visit_expr_binary`) -/

/-- The binary-operator tokens `visit_expr_binary` accepts. -/
inductive BinTok where
  | add | sub | mul | quo | rem | and | or | xor | shl | shr | andNot
  | land | lor | not | eql | lss | gtr | neq | leq | geq
  deriving DecidableEq

/-- The `match op` table at the top of `visit_expr_binary` (for `LAND`/`LOR`
the chosen opcode is the short-circuit tail's push). -/
def binOpCode : BinTok → Opcode
  | BinTok.add => Opcode.ADD
  | BinTok.sub => Opcode.SUB
  | BinTok.mul => Opcode.MUL
  | BinTok.quo => Opcode.QUO
  | BinTok.rem => Opcode.REM
  | BinTok.and => Opcode.AND
  | BinTok.or => Opcode.OR
  | BinTok.xor => Opcode.XOR
  | BinTok.shl => Opcode.SHL
  | BinTok.shr => Opcode.SHR
  | BinTok.andNot => Opcode.AND_NOT
  | BinTok.land => Opcode.PUSH_FALSE
  | BinTok.lor => Opcode.PUSH_TRUE
  | BinTok.not => Opcode.NOT
  | BinTok.eql => Opcode.EQL
  | BinTok.lss => Opcode.LSS
  | BinTok.gtr => Opcode.GTR
  | BinTok.neq => Opcode.NEQ
  | BinTok.leq => Opcode.LEQ
  | BinTok.geq => Opcode.GEQ

/-- `visit_expr_binary`.  `pre` is the code already in the current function,
`leftCode`/`rightCode` the words appended by visiting the two operands.
For `&&`/`||` the source emits a conditional jump with a `0` placeholder,
the right operand, `JUMP 1` and the tail push, then backpatches the
placeholder with `diff as OpIndex` — a silently wrapping `i16` cast,
modelled by `wrapI16`. -/
def visitExprBinary (pre leftCode rightCode : List CodeWord) (tok : BinTok) :
    List CodeWord :=
  let code := binOpCode tok
  match tok with
  | BinTok.land =>
    let c1 := pre ++ leftCode ++ [CodeWord.op Opcode.JUMP_IF_NOT, CodeWord.data 0]
    let i := c1.length
    let c2 := c1 ++ rightCode ++
      [CodeWord.op Opcode.JUMP, CodeWord.data 1, CodeWord.op code]
    setData c2 (i - 1) (wrapI16 ((c2.length : Int) - i - 1))
  | BinTok.lor =>
    let c1 := pre ++ leftCode ++ [CodeWord.op Opcode.JUMP_IF, CodeWord.data 0]
    let i := c1.length
    let c2 := c1 ++ rightCode ++
      [CodeWord.op Opcode.JUMP, CodeWord.data 1, CodeWord.op code]
    setData c2 (i - 1) (wrapI16 ((c2.length : Int) - i - 1))
  | _ => pre ++ leftCode ++ rightCode ++ [CodeWord.op code]

/-! ## Identifier resolution (`resolve_ident`) -/

/-- `EntIndex` (from `goscript_vm::ds`): where an identifier's value lives. -/
inductive EntIndexM where
  | localVar (i : Int)
  | upValue (i : Int)
  | packageMember (i : Int)
  | constant (i : Int)
  | builtIn (op : Opcode)
  | blank
  deriving DecidableEq

/-- An `Open` upvalue: the owning function's key and the entity's index
there (the generator only ever emits `Open`). -/
structure UpValueM where
  func : Nat
  index : EntIndexM
  deriving DecidableEq

/-- The slice of `FunctionVal` state that `resolve_ident` consults: the
function's arena key, its `entity → EntIndex` table and its upvalue table. -/
structure FuncM where
  key : Nat
  entityIndex : List (Nat × EntIndexM)
  upvalues : List (Nat × UpValueM)
  deriving DecidableEq

/-- `FunctionVal::entity_index`: look an entity up in the function's
local-entity table. -/
def lookupEntity (f : FuncM) (e : Nat) : Option EntIndexM :=
  (f.entityIndex.find? (fun p => p.1 == e)).map (fun p => p.2)

/-- Modelled from the spec: `FunctionVal::try_add_upvalue` (in `func.rs`,
outside `src/`) "appends or returns an existing upvalue slot and yields an
`EntIndex::UpValue(i)`". -/
def tryAddUpvalue (f : FuncM) (e : Nat) (uv : UpValueM) : FuncM × EntIndexM :=
  match f.upvalues.findIdx? (fun p => p.1 == e) with
  | some i => (f, EntIndexM.upValue i)
  | none =>
    ({ f with upvalues := f.upvalues ++ [(e, uv)] },
      EntIndexM.upValue f.upvalues.length)

/-- The three built-in value names (`built_in_vals` in `CodeGen::new`). -/
def builtInVals (name : String) : Option Opcode :=
  if name = "true" then some Opcode.PUSH_TRUE
  else if name = "false" then some Opcode.PUSH_FALSE
  else if name = "nil" then some Opcode.PUSH_NIL
  else none

/-- `resolve_ident`.  The identifier is given by its optional entity key and
its name; `stack` is `func_stack` (bottom first, last element = current
function) and `pkgMembers` the current package's `entity → member index`
map.  Returns the resolved index together with the (possibly updated,
upvalue-extended) function stack.  The final `unreachable!()` of the source
is `panicked`. -/
def resolveIdent (entity : Option Nat) (name : String) (stack : List FuncM)
    (pkgMembers : List (Nat × Int)) : Outcome (EntIndexM × List FuncM) :=
  match entity with
  | none =>
    match builtInVals name with
    | some op => Outcome.ok (EntIndexM.builtIn op, stack)
    | none => Outcome.err (Diag.undefined name)
  | some e =>
    match stack.getLast? with
    | none => Outcome.panicked
    | some cur =>
      match lookupEntity cur e with
      | some idx => Outcome.ok (idx, stack)
      | none =>
        match ((stack.drop 1).reverse.drop 1).findSome?
            (fun f => (lookupEntity f e).map (fun ind => UpValueM.mk f.key ind)) with
        | some uv =>
          let r := tryAddUpvalue cur e uv
          Outcome.ok (r.2, stack.dropLast ++ [r.1])
        | none =>
          match pkgMembers.find? (fun p => p.1 == e) with
          | some p => Outcome.ok (EntIndexM.packageMember p.2, stack)
          | none => Outcome.panicked

/-- The enclosing functions scanned for an upvalue, as the claim describes
them: the construction stack minus the package constructor at the bottom
and the current function at the top, innermost first. -/
def enclosingFrames (stack : List FuncM) : List FuncM :=
  ((stack.drop 1).dropLast).reverse

/-- The resolution order as the (amended) claim states it: built-in values
(or an "undefined" diagnostic) when there is no entity key; otherwise the
current function's locals, then the enclosing frames (adding an `Open`
upvalue to the current function on a hit), then the package members — and a
panic, not a diagnostic, when everything fails. -/
def resolveIdentSpec (entity : Option Nat) (name : String) (stack : List FuncM)
    (pkgMembers : List (Nat × Int)) : Outcome (EntIndexM × List FuncM) :=
  match entity with
  | none =>
    match builtInVals name with
    | some op => Outcome.ok (EntIndexM.builtIn op, stack)
    | none => Outcome.err (Diag.undefined name)
  | some e =>
    match stack.getLast? with
    | none => Outcome.panicked
    | some cur =>
      match lookupEntity cur e with
      | some idx => Outcome.ok (idx, stack)
      | none =>
        match (enclosingFrames stack).findSome?
            (fun f => (lookupEntity f e).map (fun ind => UpValueM.mk f.key ind)) with
        | some uv =>
          let r := tryAddUpvalue cur e uv
          Outcome.ok (r.2, stack.dropLast ++ [r.1])
        | none =>
          match pkgMembers.find? (fun p => p.1 == e) with
          | some p => Outcome.ok (EntIndexM.packageMember p.2, stack)
          | none => Outcome.panicked

/-! ## Assignment store phase (`gen_assign_def_var`, phase 3) -/

/-- `LeftHandSide` as built in phase 1 of `gen_assign`: the `i16` offsets of
index/selector and deref targets are still placeholders, so only the kind
(and, for identifiers, the resolved `EntIndex`) matters. -/
inductive LhsKind where
  | primitive (idx : EntIndexM)
  | indexSel
  | deref
  deriving DecidableEq

/-- A resolved assignment target as passed to `emit_store`. -/
inductive StoreTarget where
  | primitive (idx : EntIndexM)
  | indexSel (containerOff : Int)
  | deref (containerOff : Int)
  deriving DecidableEq

/-- One `STORE` emission of the store phase: the resolved target and the
value's stack offset (`val_index`). -/
structure StoreInstr where
  target : StoreTarget
  valIndex : Int
  deriving DecidableEq

/-- The fold computing `total_lhs_val`.  The accumulator is an `i16`
(`Primitive` adds 0, `IndexSelExpr` 2, `Deref` 1); the additions wrap as in
a release build. -/
def totalLhsVal (lhs : List LhsKind) : Int :=
  lhs.foldl
    (fun acc x =>
      match x with
      | LhsKind.primitive _ => acc
      | LhsKind.indexSel => wrapI16 (acc + 2)
      | LhsKind.deref => wrapI16 (acc + 1))
    0

/-- The `for (i, l) in lhs.iter().enumerate()` store loop of
`gen_assign_def_var`.  `totalRhs` is `total_rhs_val`, `cur` the running
`current_indexing_index`; `i as i16` and the `i16` arithmetic wrap. -/
def storePhaseAux (lhs : List LhsKind) (i : Nat) (totalRhs cur : Int) :
    List StoreInstr :=
  match lhs with
  | [] => []
  | l :: rest =>
    let valIndex := wrapI16 (wrapI16 (i : Int) - totalRhs)
    match l with
    | LhsKind.primitive e =>
      StoreInstr.mk (StoreTarget.primitive e) valIndex ::
        storePhaseAux rest (i + 1) totalRhs cur
    | LhsKind.indexSel =>
      StoreInstr.mk (StoreTarget.indexSel cur) valIndex ::
        storePhaseAux rest (i + 1) totalRhs (wrapI16 (cur + 2))
    | LhsKind.deref =>
      StoreInstr.mk (StoreTarget.deref cur) valIndex ::
        storePhaseAux rest (i + 1) totalRhs (wrapI16 (cur + 1))

/-- Phase 3 of `gen_assign_def_var`: `total_rhs_val = lhs.len() as i16`,
`total_val = total_lhs_val + total_rhs_val`, the store loop starting at
`current_indexing_index = -total_val`, then `total_val` trailing `POP`s
(`for _ in 0..total_val` is empty when `total_val` wrapped negative). -/
def storePhase (lhs : List LhsKind) : List StoreInstr × Nat :=
  let totalLhs := totalLhsVal lhs
  let totalRhs := wrapI16 (lhs.length : Int)
  let total := wrapI16 (totalLhs + totalRhs)
  (storePhaseAux lhs 0 totalRhs (wrapI16 (-total)), total.toNat)

/-- The preparation-word weight of an assignment target as the claim counts
it: `Primitive` 0, `IndexSelExpr` 2, `Deref` 1. -/
def lhsWeight : LhsKind → Int
  | LhsKind.primitive _ => 0
  | LhsKind.indexSel => 2
  | LhsKind.deref => 1

/-- `L`: the exact (unwrapped) sum of preparation-word weights. -/
def lhsWeightSum (lhs : List LhsKind) : Int := (lhs.map lhsWeight).sum

/-- The store list as the claim describes it: the `i`-th store uses value
offset `i − R`, and container offsets advance from `cur` by the stored
target's weight. -/
def claimStores (lhs : List LhsKind) (i : Nat) (R cur : Int) :
    List StoreInstr :=
  match lhs with
  | [] => []
  | l :: rest =>
    let s := match l with
      | LhsKind.primitive e =>
        StoreInstr.mk (StoreTarget.primitive e) ((i : Int) - R)
      | LhsKind.indexSel => StoreInstr.mk (StoreTarget.indexSel cur) ((i : Int) - R)
      | LhsKind.deref => StoreInstr.mk (StoreTarget.deref cur) ((i : Int) - R)
    s :: claimStores rest (i + 1) R (cur + lhsWeight l)

/-! ## Assignment right-hand sides (`gen_assign_def_var`, phase 2) -/

/-- A right-hand-side expression as phase 2 sees it: whether it is an
`Expr::Call(_)`, and whether visiting it succeeds (on failure its
diagnostic is already recorded, `visit_expr` returns `Err(())`). -/
structure RhsExpr where
  isCall : Bool
  genOk : Bool
  deriving DecidableEq

/-- Observable emissions of `gen_assign_def_var`, abstracted from code
words: visiting the `i`-th RHS expression, loading the declared type's zero
value, one `STORE`, one `POP`. -/
inductive AsgEvent where
  | rhsValue (i : Nat)
  | zeroLoad
  | store (s : StoreInstr)
  | pop
  deriving DecidableEq

/-- The `for val in values.iter() { self.visit_expr(val)?; }` loop. -/
def emitValues : List RhsExpr → Nat → Outcome (List AsgEvent)
  | [], _ => Outcome.ok []
  | v :: rest, i =>
    if v.genOk then
      match emitValues rest (i + 1) with
      | Outcome.ok es => Outcome.ok (AsgEvent.rhsValue i :: es)
      | r => r
    else Outcome.err Diag.childFailed

/-- Phase 2 of `gen_assign_def_var` for a non-range assignment: the branch
chain on `values.len()`.  `typZero` carries `typ.as_ref()` together with
the outcome `get_type_default` would produce on it (`none` models a missing
declared type, on which `typ.as_ref().unwrap()` panics). -/
def genRhsValues (lhsLen : Nat) (values : List RhsExpr)
    (typZero : Option (Outcome GosVal)) : Outcome (List AsgEvent) :=
  if values.length = lhsLen then
    emitValues values 0
  else if values.length = 0 then
    match typZero with
    | none => Outcome.panicked
    | some (Outcome.err d) => Outcome.err d
    | some Outcome.panicked => Outcome.panicked
    | some (Outcome.ok _) => Outcome.ok (List.replicate lhsLen AsgEvent.zeroLoad)
  else if values.length = 1 then
    match values with
    | v :: _ =>
      if v.isCall then
        if v.genOk then Outcome.ok [AsgEvent.rhsValue 0]
        else Outcome.err Diag.childFailed
      else Outcome.err (Diag.mismatch lhsLen values.length)
    | [] => Outcome.panicked
  else Outcome.err (Diag.mismatch lhsLen values.length)

/-- `gen_assign_def_var` on a non-range assignment: phase 2, then the store
phase and trailing pops; a phase-2 failure returns before any `STORE` or
`POP` is emitted. -/
def genAssignDefVar (lhs : List LhsKind) (values : List RhsExpr)
    (typZero : Option (Outcome GosVal)) : Outcome (List AsgEvent) :=
  match genRhsValues lhs.length values typZero with
  | Outcome.ok rhsEvents =>
    Outcome.ok (rhsEvents ++ (storePhase lhs).1.map AsgEvent.store ++
      List.replicate (storePhase lhs).2 AsgEvent.pop)
  | Outcome.err d => Outcome.err d
  | Outcome.panicked => Outcome.panicked

/-! ## Constant literal evaluation (`get_const_value`) -/

/-- The subset of `GosValue` the embedded generator manipulates.  Arena
payloads are carried inline: strings as their character lists, functions by
their arena key. -/
inductive GosVal where
  | nil
  | boolean (b : Bool)
  | int (i : Int)
  | float64 (q : Rat)
  | str (s : List Char)
  | function (key : Nat)
  deriving DecidableEq

/-- `isize::MAX`. -/
def isizeMax : Int := 9223372036854775807

/-- `isize::MIN`. -/
def isizeMin : Int := -9223372036854775808

/-- `f64::trunc` (rounding toward zero) on the exact rational value of a
finite float. -/
def rustTrunc (q : Rat) : Int := if 0 ≤ q then ⌊q⌋ else ⌈q⌉

/-- `f64::fract`: `self - self.trunc()`. -/
def rustFract (q : Rat) : Rat := q - (rustTrunc q : Rat)

/-- `f64::round` (half away from zero), exact on finite floats. -/
def rustRound (q : Rat) : Rat :=
  ((if 0 ≤ q then ⌊q + 1 / 2⌋ else ⌈q - 1 / 2⌉ : Int) : Rat)

/-- Rust's float-to-integer `as isize` cast: saturating at the type's
bounds (finite inputs). -/
def satCastIsize (q : Rat) : Int :=
  if q < (isizeMin : Rat) then isizeMin
  else if (isizeMax : Rat) < q then isizeMax
  else rustTrunc q

/-- A basic-literal `Token` as `get_const_value` receives it.  `intTok`
carries the non-negative value denoted by the digit text
(`parse::<isize>()` succeeds exactly when it is at most `isize::MAX`);
`floatTok` the exact rational value of the parsed `f64`; `charTok` and
`strTok` the literal text including its surrounding quote characters. -/
inductive LitTok where
  | intTok (n : Nat)
  | floatTok (q : Rat)
  | imagTok
  | charTok (text : List Char)
  | strTok (text : List Char)
  deriving DecidableEq

/-- `get_const_value`.  `typ` is `None` for an untyped literal, otherwise
the zero value obtained by `get_type_default` for the declared type (whose
own failure the caller propagates).  Each arm mirrors the source's match;
`unwrap` on an out-of-range `parse` and `unimplemented!()` are `panicked`.
Note the typed-string arm stores `s.to_string()` — the unstripped literal
text. -/
def getConstValue (typ : Option GosVal) (tok : LitTok) : Outcome GosVal :=
  match typ with
  | none =>
    match tok with
    | LitTok.intTok n =>
      if (n : Int) ≤ isizeMax then Outcome.ok (GosVal.int n) else Outcome.panicked
    | LitTok.floatTok q => Outcome.ok (GosVal.float64 q)
    | LitTok.imagTok => Outcome.panicked
    | LitTok.charTok text =>
      match (text.drop 1).head? with
      | some c => Outcome.ok (GosVal.int (c.toNat : Int))
      | none => Outcome.panicked
    | LitTok.strTok text => Outcome.ok (GosVal.str ((text.drop 1).dropLast))
  | some tv =>
    match tv, tok with
    | GosVal.int _, LitTok.floatTok q =>
      if rustFract q ≠ 0 then Outcome.err Diag.truncated
      else if isizeMax < satCastIsize (rustRound q)
          ∨ satCastIsize (rustRound q) < isizeMin then
        Outcome.err Diag.overflowsInt
      else Outcome.ok (GosVal.int (satCastIsize (rustRound q)))
    | GosVal.int _, LitTok.intTok n =>
      if (n : Int) ≤ isizeMax then Outcome.ok (GosVal.int n)
      else Outcome.err Diag.overflowsInt
    | GosVal.int _, LitTok.charTok text =>
      match (text.drop 1).head? with
      | some c => Outcome.ok (GosVal.int (c.toNat : Int))
      | none => Outcome.panicked
    | GosVal.float64 _, LitTok.floatTok q => Outcome.ok (GosVal.float64 q)
    | GosVal.float64 _, LitTok.intTok n => Outcome.ok (GosVal.float64 (n : Rat))
    | GosVal.float64 _, LitTok.charTok text =>
      match (text.drop 1).head? with
      | some c => Outcome.ok (GosVal.float64 ((c.toNat : Int) : Rat))
      | none => Outcome.panicked
    | GosVal.str _, LitTok.strTok text => Outcome.ok (GosVal.str text)
    | _, _ => Outcome.err Diag.invalidConstLiteral

/-! ## Package assembly (`gen`, `visit_stmt_decl_func`) -/

/-- A top-level declaration as the loop in `gen` observes it: a function
declaration (name, receiver presence, the compiled function's arena key), a
`var`/`const` declaration appending words to the constructor body and
values to the member list, or a declaration whose visit fails with an
already-recorded diagnostic. -/
inductive DeclM where
  | funcDecl (name : String) (hasRecv : Bool) (fkey : Nat)
  | varConst (ctorCode : List CodeWord) (memberVals : List GosVal)
  | failing (d : Diag)
  deriving DecidableEq

/-- The package state `gen` builds: the ordered member values and the
optional `main_func` member index. -/
structure PkgM where
  members : List GosVal
  mainFunc : Option Nat
  deriving DecidableEq

/-- Generator state while visiting top-level declarations: the current
package and the package constructor's instruction buffer (the constructor
is the current function for the whole of `gen`). -/
structure GenSt where
  pkg : PkgM
  ctorCode : List CodeWord
  deriving DecidableEq

/-- Whether a declaration is a receiver-less function named exactly
`main`. -/
def isMainDecl : DeclM → Bool
  | DeclM.funcDecl name hasRecv _ => name = "main" && !hasRecv
  | _ => false

/-- One step of the `for d in f.decls` loop.  For function declarations
(`visit_stmt_decl_func`): a receiver-bound method becomes a struct member
and touches no package member; otherwise `add_member` appends the function
value, and `set_main_func(index)` runs when the identifier is exactly
`main`. -/
def visitDeclM (st : GenSt) (d : DeclM) : Outcome GenSt :=
  match d with
  | DeclM.funcDecl name hasRecv fkey =>
    if hasRecv then Outcome.ok st
    else
      Outcome.ok { st with pkg :=
        { members := st.pkg.members ++ [GosVal.function fkey],
          mainFunc :=
            if name = "main" then some st.pkg.members.length
            else st.pkg.mainFunc } }
  | DeclM.varConst code vals =>
    Outcome.ok { pkg := { st.pkg with members := st.pkg.members ++ vals },
                 ctorCode := st.ctorCode ++ code }
  | DeclM.failing d => Outcome.err d

/-- The declaration loop of `gen` (`?`-propagation on each visit). -/
def visitDecls (st : GenSt) : List DeclM → Outcome GenSt
  | [] => Outcome.ok st
  | d :: ds =>
    match visitDeclM st d with
    | Outcome.ok st2 => visitDecls st2 ds
    | Outcome.err e => Outcome.err e
    | Outcome.panicked => Outcome.panicked

/-- `gen`: a fresh package whose member 0 is the constructor function
(`add_member(null_key, Function(fkey))` before any declaration is visited),
the declaration loop, then `emit_return_init_pkg(index)` into the
constructor. -/
def genPkg (pkgIndex : Int) (ctorKey : Nat) (decls : List DeclM) :
    Outcome (PkgM × List CodeWord) :=
  let st0 : GenSt :=
    { pkg := { members := [GosVal.function ctorKey], mainFunc := none },
      ctorCode := [] }
  match visitDecls st0 decls with
  | Outcome.ok st =>
    Outcome.ok (st.pkg,
      st.ctorCode ++ [CodeWord.op Opcode.RETURN_INIT_PKG, CodeWord.data pkgIndex])
  | Outcome.err e => Outcome.err e
  | Outcome.panicked => Outcome.panicked

/-! ## Expression visitor (`visit_expr_*`) -/

/-- The unary-operator tokens `visit_expr_unary` accepts. -/
inductive UnTok where
  | and | add | sub | xor
  deriving DecidableEq

/-- `visit_expr_unary`: `& + - ^` map to `REF`, `UNARY_ADD`, `UNARY_SUB`,
`UNARY_XOR`. -/
def unOpCode : UnTok → Opcode
  | UnTok.and => Opcode.REF
  | UnTok.add => Opcode.UNARY_ADD
  | UnTok.sub => Opcode.UNARY_SUB
  | UnTok.xor => Opcode.UNARY_XOR

/-- An expression subtree over the visitor cases embedded here. -/
inductive ExprM where
  | basicLit (tok : LitTok)
  | unary (tok : UnTok) (operand : ExprM)
  | binary (l : ExprM) (tok : BinTok) (r : ExprM)
  | index (x i : ExprM)
  | star (x : ExprM)
  | paren (e : ExprM)
  deriving DecidableEq

/-- The function-under-construction state the expression visitor touches:
instruction buffer and constant pool. -/
structure FnState where
  code : List CodeWord
  consts : List GosVal
  deriving DecidableEq

/-- `visit_expr_paren`: the source's body is just `Ok(())` — no emission,
no state change. -/
def visitExprParen (st : FnState) : Outcome FnState := Outcome.ok st

/-- Modelled from the spec: `FunctionVal::add_const(None, v)` (in
`func.rs`, outside `src/`) registers the value in the pool and returns its
index, and `emit_load` emits `LOAD(index)` as opcode plus data word. -/
def addConstLoad (st : FnState) (v : GosVal) : FnState :=
  { code := st.code ++ [CodeWord.op Opcode.LOAD, CodeWord.data (st.consts.length : Int)],
    consts := st.consts ++ [v] }

/-- The expression visitor: `walk_expr` dispatch plus the `visit_expr_*`
overrides embedded here.  The walker's child-first order is modelled from
the spec (§4.1: default traversal walks children; the generator overrides
emit after their children).  Basic literals go through `get_const_value`
with no declared type; `&&`/`||` mirror `visit_expr_binary`'s placeholder
emission and backpatch. -/
def genExprSt (st : FnState) (e : ExprM) : Outcome FnState :=
  match e with
  | ExprM.basicLit tok =>
    match getConstValue none tok with
    | Outcome.ok v => Outcome.ok (addConstLoad st v)
    | Outcome.err d => Outcome.err d
    | Outcome.panicked => Outcome.panicked
  | ExprM.unary tok operand =>
    match genExprSt st operand with
    | Outcome.ok st2 =>
      Outcome.ok { st2 with code := st2.code ++ [CodeWord.op (unOpCode tok)] }
    | r => r
  | ExprM.binary l tok r =>
    match genExprSt st l with
    | Outcome.ok st1 =>
      match tok with
      | BinTok.land =>
        let st2 : FnState :=
          { st1 with code := st1.code ++
              [CodeWord.op Opcode.JUMP_IF_NOT, CodeWord.data 0] }
        match genExprSt st2 r with
        | Outcome.ok st3 =>
          let c4 := st3.code ++ [CodeWord.op Opcode.JUMP, CodeWord.data 1,
            CodeWord.op (binOpCode BinTok.land)]
          let patched := setData c4 (st2.code.length - 1)
            (wrapI16 ((c4.length : Int) - st2.code.length - 1))
          Outcome.ok { st3 with code := patched }
        | r2 => r2
      | BinTok.lor =>
        let st2 : FnState :=
          { st1 with code := st1.code ++
              [CodeWord.op Opcode.JUMP_IF, CodeWord.data 0] }
        match genExprSt st2 r with
        | Outcome.ok st3 =>
          let c4 := st3.code ++ [CodeWord.op Opcode.JUMP, CodeWord.data 1,
            CodeWord.op (binOpCode BinTok.lor)]
          let patched := setData c4 (st2.code.length - 1)
            (wrapI16 ((c4.length : Int) - st2.code.length - 1))
          Outcome.ok { st3 with code := patched }
        | r2 => r2
      | _ =>
        match genExprSt st1 r with
        | Outcome.ok st3 =>
          Outcome.ok { st3 with code := st3.code ++ [CodeWord.op (binOpCode tok)] }
        | r2 => r2
    | r1 => r1
  | ExprM.index x i =>
    match genExprSt st x with
    | Outcome.ok st1 =>
      match genExprSt st1 i with
      | Outcome.ok st2 =>
        Outcome.ok { st2 with code := st2.code ++ [CodeWord.op Opcode.LOAD_FIELD] }
      | r2 => r2
    | r1 => r1
  | ExprM.star x =>
    match genExprSt st x with
    | Outcome.ok st1 =>
      Outcome.ok { st1 with code := st1.code ++ [CodeWord.op Opcode.DEREF] }
    | r1 => r1
  | ExprM.paren inner =>
    match genExprSt st inner with
    | Outcome.ok st1 => visitExprParen st1
    | r1 => r1

end Goscript

namespace Goscript

/-- Helper: setting the word that follows a two-word window after a known
prefix. -/
theorem set_append_two {α : Type} (l rest : List α) (a b v : α) :
    (l ++ a :: b :: rest).set (l.length + 1) v = l ++ a :: v :: rest := by
  induction l with
  | nil => rfl
  | cons x xs ih =>
    simp only [List.cons_append, List.length_cons, List.set_cons_succ]
    rw [ih]

/-- Helper: the `as i16` cast is the identity on values already in range. -/
theorem wrapI16_eq_self {n : Int} (h1 : -32768 ≤ n) (h2 : n ≤ 32767) :
    wrapI16 n = n := by
  unfold wrapI16
  omega

/-- Helper: the backpatch step of the short-circuit lowering, for a generic
conditional-jump opcode and tail opcode. -/
theorem shortCircuitPatch (A r : List CodeWord) (jop tailop : Opcode) :
    setData ((A ++ [CodeWord.op jop, CodeWord.data 0]) ++ r ++
        [CodeWord.op Opcode.JUMP, CodeWord.data 1, CodeWord.op tailop])
      ((A ++ [CodeWord.op jop, CodeWord.data 0]).length - 1)
      (wrapI16
        ((((A ++ [CodeWord.op jop, CodeWord.data 0]) ++ r ++
            [CodeWord.op Opcode.JUMP, CodeWord.data 1, CodeWord.op tailop]).length : Int)
          - ((A ++ [CodeWord.op jop, CodeWord.data 0]).length : Int) - 1))
    = A ++ [CodeWord.op jop, CodeWord.data (wrapI16 ((r.length : Int) + 2))]
      ++ r ++ [CodeWord.op Opcode.JUMP, CodeWord.data 1, CodeWord.op tailop] := by
  unfold setData
  have h1 : (((A ++ [CodeWord.op jop, CodeWord.data 0]) ++ r ++
        [CodeWord.op Opcode.JUMP, CodeWord.data 1, CodeWord.op tailop]).length : Int)
        - ((A ++ [CodeWord.op jop, CodeWord.data 0]).length : Int) - 1
      = (r.length : Int) + 2 := by
    simp only [List.length_append, List.length_cons, List.length_nil]
    push_cast
    ring
  rw [h1]
  have h2 : (A ++ [CodeWord.op jop, CodeWord.data 0]).length - 1 = A.length + 1 := by
    simp
  rw [h2]
  have h3 : (A ++ [CodeWord.op jop, CodeWord.data 0]) ++ r ++
      [CodeWord.op Opcode.JUMP, CodeWord.data 1, CodeWord.op tailop]
      = A ++ CodeWord.op jop :: CodeWord.data 0 ::
        (r ++ [CodeWord.op Opcode.JUMP, CodeWord.data 1, CodeWord.op tailop]) := by
    simp
  rw [h3, set_append_two]
  simp

/-- Helper: the full code produced for `a && b`. -/
theorem visitExprBinary_land_layout (pre l r : List CodeWord) :
    visitExprBinary pre l r BinTok.land = pre ++ l ++
      [CodeWord.op Opcode.JUMP_IF_NOT, CodeWord.data (wrapI16 ((r.length : Int) + 2))]
      ++ r ++ [CodeWord.op Opcode.JUMP, CodeWord.data 1, CodeWord.op Opcode.PUSH_FALSE] := by
  unfold visitExprBinary
  simpa [List.append_assoc] using
    shortCircuitPatch (pre ++ l) r Opcode.JUMP_IF_NOT Opcode.PUSH_FALSE

/-- Helper: the full code produced for `a || b`. -/
theorem visitExprBinary_lor_layout (pre l r : List CodeWord) :
    visitExprBinary pre l r BinTok.lor = pre ++ l ++
      [CodeWord.op Opcode.JUMP_IF, CodeWord.data (wrapI16 ((r.length : Int) + 2))]
      ++ r ++ [CodeWord.op Opcode.JUMP, CodeWord.data 1, CodeWord.op Opcode.PUSH_TRUE] := by
  unfold visitExprBinary
  simpa [List.append_assoc] using
    shortCircuitPatch (pre ++ l) r Opcode.JUMP_IF Opcode.PUSH_TRUE

/-- C1: Whenever a jump's relative offset falls outside the `i16` range —
here a then-block, a loop body or a range body of more than `32767` words —
`visit_stmt_if`, `visit_stmt_for` and `visit_stmt_range` panic in
`i16::try_from(..).unwrap()` (the source's own `todo: don't crash if
OpIndex overflows` comments) instead of recording a translation error;
when the offset fits it is stored as the signed difference from the word
after the jump's data slot to the target (shown on a one-word body:
stored offset `1`, jumping from word `2` to word `3`). -/
theorem c1_jump_overflow_crashes (pre cond init post sp body : List CodeWord)
    (h : 32767 < (body.length : Int)) :
    visitStmtIf pre cond body none = Outcome.panicked
    ∧ visitStmtFor pre init none body post = Outcome.panicked
    ∧ visitStmtRange pre sp body = Outcome.panicked
    ∧ visitStmtIf [] [] [CodeWord.op Opcode.POP] none =
      Outcome.ok [CodeWord.op Opcode.JUMP_IF_NOT, CodeWord.data 1,
        CodeWord.op Opcode.POP] := by
  refine ⟨?_, ?_, ?_, by decide⟩
  · have hc : i16TryFrom
        (((pre ++ cond ++ [CodeWord.op Opcode.JUMP_IF_NOT, CodeWord.data 0] ++ body).length : Int)
          - (pre ++ cond ++ [CodeWord.op Opcode.JUMP_IF_NOT, CodeWord.data 0]).length) = none := by
      simp only [i16TryFrom, List.length_append, List.length_cons, List.length_nil,
        i16Min, i16Max]
      rw [if_neg]
      push_cast
      omega
    simp only [visitStmtIf, List.append_assoc] at *
    rw [hc]
  · have hc : i16TryFrom
        (-((((pre ++ init) ++ body ++ post ++ [CodeWord.op Opcode.JUMP]).length : Int) + 1
          - (pre ++ init).length)) = none := by
      simp only [i16TryFrom, List.length_append, List.length_cons, List.length_nil,
        i16Min, i16Max]
      rw [if_neg]
      push_cast
      omega
    simp only [visitStmtFor, List.append_assoc] at *
    rw [hc]
  · have hc : i16TryFrom
        (-(((pre ++ ([CodeWord.op Opcode.RANGE, CodeWord.data 0] ++ (sp ++ body))
            ++ [CodeWord.op Opcode.JUMP]).length : Int) + 1 - pre.length)) = none := by
      simp only [i16TryFrom, List.length_append, List.length_cons, List.length_nil,
        i16Min, i16Max]
      rw [if_neg]
      push_cast
      omega
    simp only [visitStmtRange, List.append_assoc] at *
    rw [hc]

/-- C2 (counterexample): an identifier with an entity key that is in no
local table, no enclosing frame and not among the package members makes
`resolve_ident` hit `unreachable!()` (a panic) — it does not record the
"undefined" diagnostic the claim promises. -/
theorem c2_unresolved_entity_panics :
    resolveIdent (some 7) "x" [FuncM.mk 0 [] []] [] = Outcome.panicked
    ∧ resolveIdent (some 7) "x" [FuncM.mk 0 [] []] [] ≠
      Outcome.err (Diag.undefined "x") := by
  refine ⟨by decide, by decide⟩

/-- C2 (amended): `resolve_ident` follows exactly the claimed order —
built-ins / "undefined" diagnostic when the entity key is absent, then the
current function's locals, then the enclosing functions (package
constructor and current function skipped; a hit adds an `Open` upvalue to
the current function), then the package members — but panics
(`unreachable!()`) instead of reporting "undefined" when every lookup
fails. -/
theorem c2_resolution_order (entity : Option Nat) (name : String)
    (stack : List FuncM) (pkgMembers : List (Nat × Int)) :
    resolveIdent entity name stack pkgMembers =
      resolveIdentSpec entity name stack pkgMembers := by
  have hl : (stack.drop 1).reverse.drop 1 = enclosingFrames stack := by
    rw [enclosingFrames, List.drop_one, List.tail_reverse_eq_reverse_dropLast]
  rw [resolveIdent.eq_def, resolveIdentSpec.eq_def, hl]

/-- Helper: target weights are non-negative. -/
theorem lhsWeight_nonneg (l : LhsKind) : 0 ≤ lhsWeight l := by
  cases l <;> simp [lhsWeight]

/-- Helper: the exact preparation-word sum is non-negative. -/
theorem lhsWeightSum_nonneg (lhs : List LhsKind) : 0 ≤ lhsWeightSum lhs := by
  induction lhs with
  | nil => simp [lhsWeightSum]
  | cons l rest ih =>
    have := lhsWeight_nonneg l
    simp only [lhsWeightSum, List.map_cons, List.sum_cons] at *
    omega

/-- Helper: within `i16` range the `total_lhs_val` fold computes the exact
weight sum. -/
theorem totalLhsVal_eq_sum_aux (lhs : List LhsKind) (acc : Int) (h0 : 0 ≤ acc)
    (h : acc + lhsWeightSum lhs ≤ 32767) :
    lhs.foldl
      (fun acc x =>
        match x with
        | LhsKind.primitive _ => acc
        | LhsKind.indexSel => wrapI16 (acc + 2)
        | LhsKind.deref => wrapI16 (acc + 1))
      acc = acc + lhsWeightSum lhs := by
  induction lhs generalizing acc with
  | nil => simp [lhsWeightSum]
  | cons l rest ih =>
    have hrest := lhsWeightSum_nonneg rest
    have hsum : lhsWeightSum (l :: rest) = lhsWeight l + lhsWeightSum rest := by
      simp [lhsWeightSum, lhsWeight]
    cases l with
    | primitive e =>
      simp only [List.foldl_cons]
      rw [ih acc h0 (by rw [hsum] at h; simp [lhsWeight] at h; omega)]
      rw [hsum]
      simp [lhsWeight]
    | indexSel =>
      simp only [List.foldl_cons]
      have hw : wrapI16 (acc + 2) = acc + 2 := by
        apply wrapI16_eq_self <;> rw [hsum] at h <;> simp [lhsWeight] at h <;> omega
      rw [hw, ih (acc + 2) (by omega) (by rw [hsum] at h; simp [lhsWeight] at h; omega)]
      rw [hsum]
      simp [lhsWeight]
      ring
    | deref =>
      simp only [List.foldl_cons]
      have hw : wrapI16 (acc + 1) = acc + 1 := by
        apply wrapI16_eq_self <;> rw [hsum] at h <;> simp [lhsWeight] at h <;> omega
      rw [hw, ih (acc + 1) (by omega) (by rw [hsum] at h; simp [lhsWeight] at h; omega)]
      rw [hsum]
      simp [lhsWeight]
      ring

/-- Helper: within `i16` range the store loop produces exactly the
claim-side store list. -/
theorem storePhaseAux_eq_claimStores (lhs : List LhsKind) (i : Nat) (R cur : Int)
    (hR : R ≤ 32767) (hi : (i : Int) + lhs.length ≤ R)
    (hcur0 : -32768 ≤ cur) (hcur1 : cur + lhsWeightSum lhs ≤ 32767) :
    storePhaseAux lhs i R cur = claimStores lhs i R cur := by
  induction lhs generalizing i cur with
  | nil => rfl
  | cons l rest ih =>
    have hrest := lhsWeightSum_nonneg rest
    have hwl := lhsWeight_nonneg l
    have hlen : ((l :: rest).length : Int) = rest.length + 1 := by
      simp
    have hlr : (rest.length : Int) ≥ 0 := by positivity
    have hiR : (i : Int) < R := by omega
    have hval : wrapI16 (wrapI16 (i : Int) - R) = (i : Int) - R := by
      have h1 : wrapI16 (i : Int) = (i : Int) := by
        apply wrapI16_eq_self <;> omega
      rw [h1]
      apply wrapI16_eq_self <;> omega
    have hsum : lhsWeightSum (l :: rest) = lhsWeight l + lhsWeightSum rest := by
      simp [lhsWeightSum, lhsWeight]
    rw [hsum] at hcur1
    cases l with
    | primitive e =>
      simp only [storePhaseAux, claimStores, hval]
      rw [ih (i + 1) cur (by push_cast at *; omega) hcur0
        (by simp [lhsWeight] at hcur1; omega)]
      simp [lhsWeight]
    | indexSel =>
      simp only [storePhaseAux, claimStores, hval]
      have hw : wrapI16 (cur + 2) = cur + 2 := by
        apply wrapI16_eq_self <;> simp [lhsWeight] at hcur1 <;> omega
      rw [hw, ih (i + 1) (cur + 2) (by push_cast at *; omega) (by omega)
        (by simp [lhsWeight] at hcur1; omega)]
      simp [lhsWeight]
    | deref =>
      simp only [storePhaseAux, claimStores, hval]
      have hw : wrapI16 (cur + 1) = cur + 1 := by
        apply wrapI16_eq_self <;> simp [lhsWeight] at hcur1 <;> omega
      rw [hw, ih (i + 1) (cur + 1) (by push_cast at *; omega) (by omega)
        (by simp [lhsWeight] at hcur1; omega)]
      simp [lhsWeight]

/-- Helper: `storePhase` unfolded. -/
theorem storePhase_eq (lhs : List LhsKind) :
    storePhase lhs =
      (storePhaseAux lhs 0 (wrapI16 (lhs.length : Int))
        (wrapI16 (-(wrapI16 (totalLhsVal lhs + wrapI16 (lhs.length : Int))))),
       (wrapI16 (totalLhsVal lhs + wrapI16 (lhs.length : Int))).toNat) := rfl

/-- Helper: `total_lhs_val` of an all-`Primitive` target list is `0` (the
fold never adds). -/
theorem totalLhsVal_replicate_primitive (n : Nat) (e : EntIndexM) :
    totalLhsVal (List.replicate n (LhsKind.primitive e)) = 0 := by
  unfold totalLhsVal
  induction n with
  | zero => rfl
  | succ m ih =>
    rw [List.replicate_succ]
    simpa using ih

/-- Helper: the exact weight sum of an all-`Primitive` target list is `0`. -/
theorem lhsWeightSum_replicate_primitive (n : Nat) (e : EntIndexM) :
    lhsWeightSum (List.replicate n (LhsKind.primitive e)) = 0 := by
  unfold lhsWeightSum
  simp [List.map_replicate, lhsWeight]

/-- Helper: the first store of a non-empty all-`Primitive` store loop. -/
theorem storePhaseAux_replicate_head (n : Nat) (e : EntIndexM) (i : Nat)
    (R cur : Int) (h : 0 < n) :
    (storePhaseAux (List.replicate n (LhsKind.primitive e)) i R cur).head? =
      some (StoreInstr.mk (StoreTarget.primitive e)
        (wrapI16 (wrapI16 (i : Int) - R))) := by
  cases n with
  | zero => omega
  | succ m =>
    rw [List.replicate_succ]
    rfl

/-- C4 (counterexample): a plain assignment with 65536 `Primitive` targets
(`L = 0`, `R = 65536`) makes `lhs.len() as i16` wrap to `0`: the store
phase then emits zero trailing `POP`s instead of `L + R = 65536`, and the
0-th `STORE` uses value offset `0` instead of `0 − R = −65536` — the claim
fails as stated. -/
theorem c4_wrap_counterexample :
    (storePhase (List.replicate 65536 (LhsKind.primitive (EntIndexM.localVar 0)))).2 = 0
    ∧ lhsWeightSum (List.replicate 65536 (LhsKind.primitive (EntIndexM.localVar 0)))
        + ((List.replicate 65536 (LhsKind.primitive (EntIndexM.localVar 0))).length : Int)
        = 65536
    ∧ (0 : Nat) ≠ 65536
    ∧ (storePhase (List.replicate 65536 (LhsKind.primitive (EntIndexM.localVar 0)))).1.head?
      = some (StoreInstr.mk (StoreTarget.primitive (EntIndexM.localVar 0)) 0)
    ∧ (0 : Int) ≠ (0 : Int) - 65536 := by
  have ht := totalLhsVal_replicate_primitive 65536 (EntIndexM.localVar 0)
  have hs := lhsWeightSum_replicate_primitive 65536 (EntIndexM.localVar 0)
  have hw : wrapI16 ((List.replicate 65536 (LhsKind.primitive (EntIndexM.localVar 0))).length : Int)
      = 0 := by
    rw [List.length_replicate]
    norm_num [wrapI16]
  refine ⟨?_, ?_, by decide, ?_, by decide⟩
  · rw [storePhase_eq, ht, hw]
    norm_num [wrapI16]
  · rw [hs, List.length_replicate]
    norm_num
  · rw [storePhase_eq, ht, hw,
      storePhaseAux_replicate_head 65536 (EntIndexM.localVar 0) 0 _ _ (by norm_num)]
    norm_num [wrapI16]

/-- C4 (amended): provided `L + R ≤ 32767` (so none of the `i16` casts in
the store phase wrap — with more targets `lhs.len() as i16` silently
wraps, see the counterexample), the store phase of a plain assignment with
`R = len(lhs)` targets and preparation-word sum `L` emits the `i`-th
`STORE` with value offset `i − R`, gives index/selector and deref targets
container offsets starting at `−(L+R)` and advancing by 2 resp. 1, and
follows with exactly `L + R` `POP`s. -/
theorem c4_store_offsets (lhs : List LhsKind)
    (hfit : lhsWeightSum lhs + (lhs.length : Int) ≤ 32767) :
    storePhase lhs =
      (claimStores lhs 0 (lhs.length : Int)
        (-(lhsWeightSum lhs + (lhs.length : Int))),
       (lhsWeightSum lhs + (lhs.length : Int)).toNat) := by
  have hL := lhsWeightSum_nonneg lhs
  have hlen : (0 : Int) ≤ (lhs.length : Int) := by positivity
  have h1 : wrapI16 (lhs.length : Int) = (lhs.length : Int) := by
    apply wrapI16_eq_self <;> omega
  have h2 : totalLhsVal lhs = lhsWeightSum lhs := by
    unfold totalLhsVal
    simpa using totalLhsVal_eq_sum_aux lhs 0 le_rfl (by omega)
  have h3 : wrapI16 (totalLhsVal lhs + wrapI16 (lhs.length : Int))
      = lhsWeightSum lhs + (lhs.length : Int) := by
    rw [h1, h2]
    apply wrapI16_eq_self <;> omega
  have h4 : wrapI16 (-(lhsWeightSum lhs + (lhs.length : Int)))
      = -(lhsWeightSum lhs + (lhs.length : Int)) := by
    apply wrapI16_eq_self <;> omega
  rw [storePhase_eq, h3, h4, h1,
    storePhaseAux_eq_claimStores lhs 0 (lhs.length : Int)
      (-(lhsWeightSum lhs + (lhs.length : Int)))
      (by omega) (by omega) (by omega) (by omega)]

/-- Witness for `c4_store_offsets` on a three-target assignment
`x, a[i], *p = ...` (`L = 3`, `R = 3`). -/
theorem c4_store_offsets_witness :
    (lhsWeightSum [LhsKind.primitive (EntIndexM.localVar 0), LhsKind.indexSel,
        LhsKind.deref]
      + (([LhsKind.primitive (EntIndexM.localVar 0), LhsKind.indexSel,
        LhsKind.deref] : List LhsKind).length : Int) ≤ 32767)
    ∧ storePhase [LhsKind.primitive (EntIndexM.localVar 0), LhsKind.indexSel,
        LhsKind.deref] =
      (claimStores [LhsKind.primitive (EntIndexM.localVar 0), LhsKind.indexSel,
          LhsKind.deref] 0
        (([LhsKind.primitive (EntIndexM.localVar 0), LhsKind.indexSel,
          LhsKind.deref] : List LhsKind).length : Int)
        (-(lhsWeightSum [LhsKind.primitive (EntIndexM.localVar 0), LhsKind.indexSel,
            LhsKind.deref]
          + (([LhsKind.primitive (EntIndexM.localVar 0), LhsKind.indexSel,
            LhsKind.deref] : List LhsKind).length : Int))),
       (lhsWeightSum [LhsKind.primitive (EntIndexM.localVar 0), LhsKind.indexSel,
          LhsKind.deref]
        + (([LhsKind.primitive (EntIndexM.localVar 0), LhsKind.indexSel,
          LhsKind.deref] : List LhsKind).length : Int)).toNat) :=
  ⟨by decide, c4_store_offsets _ (by decide)⟩

/-- C3 (counterexample): with a 32766-word right operand the short-circuit
backpatch `diff as OpIndex` wraps (`wrapI16 32768 = -32768`), so the
patched `JUMP_IF_NOT` offset resolves to a negative address — it cannot
target the trailing `PUSH_FALSE` tail (which sits at a non-negative
index), contradicting the claim as stated for every binary expression. -/
theorem c3_wrap_counterexample :
    visitExprBinary [] [] (List.replicate 32766 (CodeWord.op Opcode.POP)) BinTok.land
      = [CodeWord.op Opcode.JUMP_IF_NOT, CodeWord.data (-32768)]
        ++ List.replicate 32766 (CodeWord.op Opcode.POP)
        ++ [CodeWord.op Opcode.JUMP, CodeWord.data 1, CodeWord.op Opcode.PUSH_FALSE]
    ∧ jumpTarget 1 (-32768) < 0 := by
  constructor
  · have h := visitExprBinary_land_layout [] []
      (List.replicate 32766 (CodeWord.op Opcode.POP))
    rw [h]
    norm_num [List.length_replicate, wrapI16]
  · norm_num [jumpTarget]

/-- C3 (amended): provided `len(b) + 2` fits in `i16` (otherwise the
backpatch cast wraps, see the counterexample), `a && b` compiles to `a`'s
code, a `JUMP_IF_NOT` whose patched offset targets the trailing `PUSH_FALSE`
tail, `b`'s code and a `JUMP 1` over the tail, and the conditional jump —
taken exactly when `a` is false — skips past every word derived from `b`
(`b` occupies indices `pre+l+2 .. pre+l+2+len(b)`, the taken target is
`pre+l+len(b)+4`), while falling through to `b`'s first word when `a` is
true; symmetrically for `a || b` with `JUMP_IF` and `PUSH_TRUE`. -/
theorem c3_short_circuit (pre l r : List CodeWord)
    (hfit : (r.length : Int) + 2 ≤ 32767) :
    (visitExprBinary pre l r BinTok.land = pre ++ l ++
        [CodeWord.op Opcode.JUMP_IF_NOT, CodeWord.data ((r.length : Int) + 2)]
        ++ r ++ [CodeWord.op Opcode.JUMP, CodeWord.data 1, CodeWord.op Opcode.PUSH_FALSE]
      ∧ jumpTarget (pre.length + l.length + 1) ((r.length : Int) + 2)
          = (pre.length : Int) + l.length + r.length + 4
      ∧ condJumpNext (pre.length + l.length + 1) ((r.length : Int) + 2) true
          = (pre.length : Int) + l.length + r.length + 4
      ∧ condJumpNext (pre.length + l.length + 1) ((r.length : Int) + 2) false
          = (pre.length : Int) + l.length + 2
      ∧ jumpTarget (pre.length + l.length + r.length + 3) 1
          = (pre.length : Int) + l.length + r.length + 5)
    ∧ (visitExprBinary pre l r BinTok.lor = pre ++ l ++
        [CodeWord.op Opcode.JUMP_IF, CodeWord.data ((r.length : Int) + 2)]
        ++ r ++ [CodeWord.op Opcode.JUMP, CodeWord.data 1, CodeWord.op Opcode.PUSH_TRUE]
      ∧ condJumpNext (pre.length + l.length + 1) ((r.length : Int) + 2) true
          = (pre.length : Int) + l.length + r.length + 4
      ∧ condJumpNext (pre.length + l.length + 1) ((r.length : Int) + 2) false
          = (pre.length : Int) + l.length + 2) := by
  have hwrap : wrapI16 ((r.length : Int) + 2) = (r.length : Int) + 2 :=
    wrapI16_eq_self (by omega) hfit
  refine ⟨⟨?_, ?_, ?_, ?_, ?_⟩, ⟨?_, ?_, ?_⟩⟩
  · rw [visitExprBinary_land_layout, hwrap]
  · simp [jumpTarget]
    ring
  · simp [condJumpNext, jumpTarget]
    ring
  · simp [condJumpNext]
    ring
  · simp [jumpTarget]
    ring
  · rw [visitExprBinary_lor_layout, hwrap]
  · simp [condJumpNext, jumpTarget]
    ring
  · simp [condJumpNext]
    ring

/-- Witness for `c3_short_circuit` on `a && b` / `a || b` with one-word
operands. -/
theorem c3_short_circuit_witness :
    (((List.replicate 1 (CodeWord.op Opcode.PUSH_TRUE)).length : Int) + 2 ≤ 32767)
    ∧ ((visitExprBinary [] [CodeWord.op Opcode.PUSH_TRUE]
          (List.replicate 1 (CodeWord.op Opcode.PUSH_TRUE)) BinTok.land =
        [CodeWord.op Opcode.PUSH_TRUE] ++
          [CodeWord.op Opcode.JUMP_IF_NOT, CodeWord.data 3] ++
          [CodeWord.op Opcode.PUSH_TRUE] ++
          [CodeWord.op Opcode.JUMP, CodeWord.data 1, CodeWord.op Opcode.PUSH_FALSE])
      ∧ jumpTarget 2 3 = 6 ∧ condJumpNext 2 3 true = 6 ∧ condJumpNext 2 3 false = 3) := by
  have h := c3_short_circuit [] [CodeWord.op Opcode.PUSH_TRUE]
    (List.replicate 1 (CodeWord.op Opcode.PUSH_TRUE)) (by decide)
  refine ⟨by decide, ?_, ?_, ?_, ?_⟩
  · simpa using h.1.1
  · simpa using h.1.2.1
  · simpa using h.1.2.2.1
  · simpa using h.1.2.2.2.1

/-- Helper: the RHS-emission loop succeeds when every expression in it
compiles. -/
theorem emitValues_ok (vs : List RhsExpr) (i : Nat)
    (h : ∀ v ∈ vs, v.genOk = true) :
    ∃ es, emitValues vs i = Outcome.ok es := by
  induction vs generalizing i with
  | nil => exact ⟨[], rfl⟩
  | cons v rest ih =>
    have hv : v.genOk = true := h v (by simp)
    obtain ⟨es, hes⟩ := ih (i + 1) (fun w hw => h w (by simp [hw]))
    exact ⟨AsgEvent.rhsValue i :: es, by simp [emitValues, hv, hes]⟩

/-- C5: for a non-range, non-compound assignment or var definition, the
RHS lowering succeeds exactly when `len(rhs) = len(lhs)`, `len(rhs) = 0`
(the declared type's zero value loaded `len(lhs)` times) or `len(rhs) = 1`
with a call expression on the right; in every other case an
assignment-mismatch diagnostic is recorded and generation fails before any
`STORE` is emitted. -/
theorem c5_rhs_arity_cases (lhs : List LhsKind) (values : List RhsExpr)
    (typZero : Option (Outcome GosVal))
    (hok : ∀ v ∈ values, v.genOk = true)
    (hzero : values.length = 0 → ∃ z, typZero = some (Outcome.ok z)) :
    ((∃ t, genAssignDefVar lhs values typZero = Outcome.ok t) ↔
      (values.length = lhs.length ∨ values.length = 0 ∨
        (values.length = 1 ∧ ∃ v, values = [v] ∧ v.isCall = true)))
    ∧ (¬ (values.length = lhs.length ∨ values.length = 0 ∨
        (values.length = 1 ∧ ∃ v, values = [v] ∧ v.isCall = true)) →
      genAssignDefVar lhs values typZero
        = Outcome.err (Diag.mismatch lhs.length values.length)) := by
  have main : (values.length = lhs.length ∨ values.length = 0 ∨
        (values.length = 1 ∧ ∃ v, values = [v] ∧ v.isCall = true)) →
      ∃ t, genAssignDefVar lhs values typZero = Outcome.ok t := by
    intro hcond
    by_cases h1 : values.length = lhs.length
    · obtain ⟨es, hes⟩ := emitValues_ok values 0 hok
      refine ⟨es ++ (storePhase lhs).1.map AsgEvent.store ++
        List.replicate (storePhase lhs).2 AsgEvent.pop, ?_⟩
      simp [genAssignDefVar, genRhsValues, h1, hes]
    · by_cases h2 : values.length = 0
      · obtain ⟨z, hz⟩ := hzero h2
        obtain rfl : values = [] := List.eq_nil_of_length_eq_zero h2
        have h1n : ¬((0 : Nat) = lhs.length) := by simpa using h1
        refine ⟨List.replicate lhs.length AsgEvent.zeroLoad ++
          (storePhase lhs).1.map AsgEvent.store ++
          List.replicate (storePhase lhs).2 AsgEvent.pop, ?_⟩
        simp [genAssignDefVar, genRhsValues, h1n, hz]
      · rcases hcond with hc | hc | ⟨hlen1, v, hv, hcall⟩
        · exact absurd hc h1
        · exact absurd hc h2
        · have hvok : v.genOk = true := hok v (by simp [hv])
          subst hv
          have h1n : ¬((1 : Nat) = lhs.length) := by simpa using h1
          refine ⟨[AsgEvent.rhsValue 0] ++ (storePhase lhs).1.map AsgEvent.store ++
            List.replicate (storePhase lhs).2 AsgEvent.pop, ?_⟩
          simp [genAssignDefVar, genRhsValues, h1n, hcall, hvok]
  have fail : ¬ (values.length = lhs.length ∨ values.length = 0 ∨
        (values.length = 1 ∧ ∃ v, values = [v] ∧ v.isCall = true)) →
      genAssignDefVar lhs values typZero
        = Outcome.err (Diag.mismatch lhs.length values.length) := by
    intro hcond
    push_neg at hcond
    obtain ⟨h1, h2, h3⟩ := hcond
    by_cases hlen1 : values.length = 1
    · match values, hlen1 with
      | [v], _ =>
        have hvc : v.isCall = false := by
          have := h3 (by simp) v rfl
          simpa using this
        have h1n : ¬((1 : Nat) = lhs.length) := by simpa using h1
        simp [genAssignDefVar, genRhsValues, h1n, hvc]
    · simp [genAssignDefVar, genRhsValues, h1, h2, hlen1]
  refine ⟨⟨?_, main⟩, fail⟩
  intro ⟨t, ht⟩
  by_contra hcond
  rw [fail hcond] at ht
  exact Outcome.noConfusion ht

/-- Witness for `c5_rhs_arity_cases`: two targets, a single non-call RHS
(`var a, b = 1`) — the mismatch diagnostic is produced. -/
theorem c5_rhs_arity_cases_witness :
    (∀ v ∈ [RhsExpr.mk false true], v.genOk = true)
    ∧ (([RhsExpr.mk false true] : List RhsExpr).length = 0 →
        ∃ z, (some (Outcome.ok GosVal.nil) : Option (Outcome GosVal))
          = some (Outcome.ok z))
    ∧ genAssignDefVar
        [LhsKind.primitive (EntIndexM.localVar 0),
          LhsKind.primitive (EntIndexM.localVar 1)]
        [RhsExpr.mk false true] (some (Outcome.ok GosVal.nil))
      = Outcome.err (Diag.mismatch 2 1) := by
  refine ⟨by decide, fun _ => ⟨GosVal.nil, rfl⟩, ?_⟩
  have h := (c5_rhs_arity_cases
    [LhsKind.primitive (EntIndexM.localVar 0), LhsKind.primitive (EntIndexM.localVar 1)]
    [RhsExpr.mk false true] (some (Outcome.ok GosVal.nil))
    (by decide) (fun _ => ⟨GosVal.nil, rfl⟩)).2
  have hneg : ¬ (([RhsExpr.mk false true] : List RhsExpr).length =
        ([LhsKind.primitive (EntIndexM.localVar 0),
          LhsKind.primitive (EntIndexM.localVar 1)] : List LhsKind).length ∨
      ([RhsExpr.mk false true] : List RhsExpr).length = 0 ∨
      (([RhsExpr.mk false true] : List RhsExpr).length = 1 ∧
        ∃ v, ([RhsExpr.mk false true] : List RhsExpr) = [v] ∧ v.isCall = true)) := by
    rintro (hc | hc | ⟨-, v, hv, hc⟩)
    · simp at hc
    · simp at hc
    · obtain ⟨h2, -⟩ := List.cons.inj hv
      rw [← h2] at hc
      simp at hc
  simpa using h hneg

/-- C6: a float literal with zero fractional part whose rounded value
exceeds `isize::MAX` is NOT reported as an overflow: the saturating
`as isize` cast clamps `fval.round()` to `isize::MAX` first, so the
source's `(fval.round() as isize) > std::isize::MAX` test can never be
true, and the constant silently becomes `Int(isize::MAX)`.  The input
`1180591620717411303424.0` is `2^70`, exactly representable in `f64`.
The truncation half of the claim does hold (`5/2` is rejected). -/
theorem c6_float_overflow_saturates :
    getConstValue (some (GosVal.int 0)) (LitTok.floatTok (1180591620717411303424 : Rat))
      = Outcome.ok (GosVal.int isizeMax)
    ∧ (isizeMax : Rat) < (1180591620717411303424 : Rat)
    ∧ isizeMax < (1180591620717411303424 : Int)
    ∧ getConstValue (some (GosVal.int 0)) (LitTok.floatTok (5 / 2 : Rat))
      = Outcome.err Diag.truncated := by
  have hN : (1180591620717411303424 : Rat) = ((1180591620717411303424 : Int) : Rat) := by
    norm_num
  have htr : rustTrunc (1180591620717411303424 : Rat) = 1180591620717411303424 := by
    rw [rustTrunc, if_pos (by norm_num), hN, Int.floor_intCast]
  have hfr : rustFract (1180591620717411303424 : Rat) = 0 := by
    rw [rustFract, htr]
    norm_num
  have hrd : rustRound (1180591620717411303424 : Rat)
      = ((1180591620717411303424 : Int) : Rat) := by
    rw [rustRound, if_pos (by norm_num)]
    norm_num
  have hsat : satCastIsize (rustRound (1180591620717411303424 : Rat)) = isizeMax := by
    rw [hrd, satCastIsize, if_neg (by norm_num [isizeMin]), if_pos (by norm_num [isizeMax])]
  have htr2 : rustTrunc (5 / 2 : Rat) = 2 := by
    rw [rustTrunc, if_pos (by norm_num)]
    norm_num
  have hfr2 : rustFract (5 / 2 : Rat) ≠ 0 := by
    rw [rustFract, htr2]
    norm_num
  refine ⟨?_, by norm_num [isizeMax], by norm_num [isizeMax], ?_⟩
  · simp only [getConstValue, hfr, hsat]
    norm_num [isizeMax, isizeMin]
  · simp only [getConstValue]
    rw [if_pos hfr2]

/-- C7: `get_const_value` strips the surrounding quotes of a string literal
only in the untyped branch (`s[1..s.len()-1]`); with a declared string
type the branch stores `s.to_string()`, keeping the quote characters, so
the two branches disagree on the same literal `"ab"`. -/
theorem c7_typed_string_keeps_quotes :
    getConstValue none (LitTok.strTok ['"', 'a', 'b', '"'])
      = Outcome.ok (GosVal.str ['a', 'b'])
    ∧ getConstValue (some (GosVal.str [])) (LitTok.strTok ['"', 'a', 'b', '"'])
      = Outcome.ok (GosVal.str ['"', 'a', 'b', '"'])
    ∧ GosVal.str ['"', 'a', 'b', '"'] ≠ GosVal.str ['a', 'b'] := by
  refine ⟨by decide, by decide, by decide⟩

/-- C10: an untyped integer literal in `isize` range is materialised as
`Int` of its value with no error; out of range the untyped branch's
`parse::<isize>().unwrap()` panics (the in-range precondition is what keeps
that branch total), whereas the typed branch reports an overflow
diagnostic. -/
theorem c10_untyped_int_range (n m : Nat)
    (hn : (n : Int) ≤ isizeMax) (hm : isizeMax < (m : Int)) :
    getConstValue none (LitTok.intTok n) = Outcome.ok (GosVal.int n)
    ∧ getConstValue none (LitTok.intTok m) = Outcome.panicked
    ∧ getConstValue (some (GosVal.int 0)) (LitTok.intTok m)
      = Outcome.err Diag.overflowsInt := by
  refine ⟨?_, ?_, ?_⟩
  · simp only [getConstValue]
    rw [if_pos hn]
  · simp only [getConstValue]
    rw [if_neg (by omega)]
  · simp only [getConstValue]
    rw [if_neg (by omega)]

/-- Witness for `c10_untyped_int_range` at `3` (in range) and `2^63` (out
of range). -/
theorem c10_untyped_int_range_witness :
    ((3 : Nat) : Int) ≤ isizeMax
    ∧ isizeMax < ((9223372036854775808 : Nat) : Int)
    ∧ (getConstValue none (LitTok.intTok 3) = Outcome.ok (GosVal.int 3)
      ∧ getConstValue none (LitTok.intTok 9223372036854775808) = Outcome.panicked
      ∧ getConstValue (some (GosVal.int 0)) (LitTok.intTok 9223372036854775808)
        = Outcome.err Diag.overflowsInt) := by
  refine ⟨by norm_num [isizeMax], by norm_num [isizeMax], ?_⟩
  exact c10_untyped_int_range 3 9223372036854775808
    (by norm_num [isizeMax]) (by norm_num [isizeMax])

/-- Helper: invariant of the `gen` declaration loop — members only grow at
the tail, and `main_func` is set exactly by receiver-less `main` function
declarations and then points at a function member. -/
theorem visitDecls_inv (ds : List DeclM) (st st2 : GenSt)
    (h : visitDecls st ds = Outcome.ok st2) :
    (∃ rest, st2.pkg.members = st.pkg.members ++ rest)
    ∧ (st2.pkg.mainFunc.isSome ↔
        (st.pkg.mainFunc.isSome ∨ ∃ d ∈ ds, isMainDecl d = true))
    ∧ (∀ i, st2.pkg.mainFunc = some i →
        (∃ k, DeclM.funcDecl "main" false k ∈ ds
          ∧ st2.pkg.members[i]? = some (GosVal.function k))
        ∨ st.pkg.mainFunc = some i) := by
  induction ds generalizing st with
  | nil =>
    simp only [visitDecls] at h
    cases h
    exact ⟨⟨[], by simp⟩, by simp, fun i hi => Or.inr hi⟩
  | cons d ds ih =>
    cases d with
    | funcDecl name hasRecv fkey =>
      by_cases hr : hasRecv
      · subst hr
        simp only [visitDecls, visitDeclM, if_pos rfl] at h
        obtain ⟨⟨rest, hrest⟩, hiff, hmain⟩ := ih st h
        refine ⟨⟨rest, hrest⟩, ?_, ?_⟩
        · rw [hiff]
          simp [isMainDecl]
        · intro i hi
          rcases hmain i hi with ⟨k, hk, hm⟩ | hold
          · exact Or.inl ⟨k, by simp [hk], hm⟩
          · exact Or.inr hold
      · have hr2 : hasRecv = false := by simpa using hr
        subst hr2
        simp only [visitDecls, visitDeclM, Bool.false_eq_true, if_false] at h
        set st1 : GenSt :=
          { st with pkg :=
            { members := st.pkg.members ++ [GosVal.function fkey],
              mainFunc :=
                if name = "main" then some st.pkg.members.length
                else st.pkg.mainFunc } } with hst1
        obtain ⟨⟨rest, hrest⟩, hiff, hmain⟩ := ih st1 h
        have hmem1 : st1.pkg.members = st.pkg.members ++ [GosVal.function fkey] := rfl
        refine ⟨⟨[GosVal.function fkey] ++ rest, by rw [hrest, hmem1]; simp⟩, ?_, ?_⟩
        · rw [hiff]
          by_cases hn : name = "main"
          · subst hn
            simp [hst1, isMainDecl]
          · have : st1.pkg.mainFunc = st.pkg.mainFunc := by
              simp [hst1, hn]
            rw [this]
            simp [isMainDecl, hn]
        · intro i hi
          rcases hmain i hi with ⟨k, hk, hm⟩ | hold
          · exact Or.inl ⟨k, by simp [hk], hm⟩
          · by_cases hn : name = "main"
            · subst hn
              have : some st.pkg.members.length = some i := by
                simpa [hst1] using hold
              cases this
              refine Or.inl ⟨fkey, by simp, ?_⟩
              rw [hrest, hmem1, List.append_assoc,
                List.getElem?_append_right (le_refl _)]
              simp
            · have : st.pkg.mainFunc = some i := by
                simpa [hst1, hn] using hold
              exact Or.inr this
    | varConst code vals =>
      simp only [visitDecls, visitDeclM] at h
      set st1 : GenSt :=
        { pkg := { st.pkg with members := st.pkg.members ++ vals },
          ctorCode := st.ctorCode ++ code } with hst1
      obtain ⟨⟨rest, hrest⟩, hiff, hmain⟩ := ih st1 h
      refine ⟨⟨vals ++ rest, by rw [hrest]; simp [hst1]⟩, ?_, ?_⟩
      · rw [hiff]
        simp [hst1, isMainDecl]
      · intro i hi
        rcases hmain i hi with ⟨k, hk, hm⟩ | hold
        · exact Or.inl ⟨k, by simp [hk], hm⟩
        · exact Or.inr (by simpa [hst1] using hold)
    | failing dg =>
      simp only [visitDecls, visitDeclM] at h
      exact Outcome.noConfusion h

/-- C8: for every successfully generated package, member 0 is the package
constructor function installed before any declaration is visited, the
constructor's instruction stream ends with `RETURN_INIT_PKG` of the
package's index, and `main_func` is set exactly when a receiver-less
function declaration named `main` appears — and then it indexes that
function member. -/
theorem c8_package_ctor_main (pkgIndex : Int) (ctorKey : Nat)
    (decls : List DeclM) (pkg : PkgM) (code : List CodeWord)
    (h : genPkg pkgIndex ctorKey decls = Outcome.ok (pkg, code)) :
    pkg.members.head? = some (GosVal.function ctorKey)
    ∧ (∃ pre, code =
        pre ++ [CodeWord.op Opcode.RETURN_INIT_PKG, CodeWord.data pkgIndex])
    ∧ (pkg.mainFunc.isSome ↔ ∃ d ∈ decls, isMainDecl d = true)
    ∧ (∀ i, pkg.mainFunc = some i →
        ∃ k, DeclM.funcDecl "main" false k ∈ decls
          ∧ pkg.members[i]? = some (GosVal.function k)) := by
  simp only [genPkg] at h
  set st0 : GenSt :=
    { pkg := { members := [GosVal.function ctorKey], mainFunc := none },
      ctorCode := [] } with hst0
  cases hv : visitDecls st0 decls with
  | ok st =>
    rw [hv] at h
    cases h
    obtain ⟨⟨rest, hrest⟩, hiff, hmain⟩ := visitDecls_inv decls st0 st hv
    refine ⟨?_, ⟨st.ctorCode, rfl⟩, ?_, ?_⟩
    · rw [hrest]
      simp [hst0]
    · rw [hiff]
      simp [hst0]
    · intro i hi
      rcases hmain i hi with ⟨k, hk, hm⟩ | hold
      · exact ⟨k, hk, hm⟩
      · simp [hst0] at hold
  | err e =>
    rw [hv] at h
    exact Outcome.noConfusion h
  | panicked =>
    rw [hv] at h
    exact Outcome.noConfusion h

/-- Witness for `c8_package_ctor_main`: one `main` declaration. -/
theorem c8_package_ctor_main_witness :
    genPkg 0 7 [DeclM.funcDecl "main" false 5]
      = Outcome.ok
        ({ members := [GosVal.function 7, GosVal.function 5], mainFunc := some 1 },
         [CodeWord.op Opcode.RETURN_INIT_PKG, CodeWord.data 0])
    ∧ ((PkgM.mk [GosVal.function 7, GosVal.function 5] (some 1)).members.head?
        = some (GosVal.function 7)
      ∧ (∃ pre, ([CodeWord.op Opcode.RETURN_INIT_PKG, CodeWord.data 0] : List CodeWord) =
          pre ++ [CodeWord.op Opcode.RETURN_INIT_PKG, CodeWord.data 0])
      ∧ ((PkgM.mk [GosVal.function 7, GosVal.function 5] (some 1)).mainFunc.isSome ↔
          ∃ d ∈ [DeclM.funcDecl "main" false 5], isMainDecl d = true)
      ∧ (∀ i, (PkgM.mk [GosVal.function 7, GosVal.function 5] (some 1)).mainFunc = some i →
          ∃ k, DeclM.funcDecl "main" false k ∈ [DeclM.funcDecl "main" false 5]
            ∧ (PkgM.mk [GosVal.function 7, GosVal.function 5] (some 1)).members[i]?
              = some (GosVal.function k))) := by
  have hgen : genPkg 0 7 [DeclM.funcDecl "main" false 5]
      = Outcome.ok
        ({ members := [GosVal.function 7, GosVal.function 5], mainFunc := some 1 },
         [CodeWord.op Opcode.RETURN_INIT_PKG, CodeWord.data 0]) := by decide
  exact ⟨hgen, c8_package_ctor_main 0 7 [DeclM.funcDecl "main" false 5] _ _ hgen⟩

/-- C9: compiling a parenthesized expression `(e)` produces exactly the
state compiling `e` produces — `visit_expr_paren` is a no-op around the
child's traversal, so the appended instruction sequence is identical. -/
theorem c9_paren_noop (st : FnState) (e : ExprM) :
    genExprSt st (ExprM.paren e) = genExprSt st e := by
  cases h : genExprSt st e with
  | ok st1 => simp [genExprSt, h, visitExprParen]
  | err d => simp [genExprSt, h]
  | panicked => simp [genExprSt, h]

/-- Witness for `c1_jump_overflow_crashes` at a concrete 40000-word body. -/
theorem c1_jump_overflow_crashes_witness :
    32767 < ((List.replicate 40000 (CodeWord.op Opcode.POP)).length : Int)
    ∧ (visitStmtIf [] [] (List.replicate 40000 (CodeWord.op Opcode.POP)) none =
        Outcome.panicked
      ∧ visitStmtFor [] [] none (List.replicate 40000 (CodeWord.op Opcode.POP)) [] =
        Outcome.panicked
      ∧ visitStmtRange [] [] (List.replicate 40000 (CodeWord.op Opcode.POP)) =
        Outcome.panicked
      ∧ visitStmtIf [] [] [CodeWord.op Opcode.POP] none =
        Outcome.ok [CodeWord.op Opcode.JUMP_IF_NOT, CodeWord.data 1,
          CodeWord.op Opcode.POP]) := by
  have h : 32767 < ((List.replicate 40000 (CodeWord.op Opcode.POP)).length : Int) := by
    rw [List.length_replicate]
    norm_num
  exact ⟨h, c1_jump_overflow_crashes [] [] [] [] [] _ h⟩

end Goscript
